import Mathlib

/-!
Verification of the task data model and reconciliation engine of the
mcp-shrimp-task-manager repository.  The TypeScript source
(`src/models/taskModel.ts`, `src/types/index.ts`,
`src/tools/task/splitTasksRaw.ts`) is shallowly embedded as executable
Lean definitions: timestamps become `Nat`, `Date` values produced by
`getLocalDate()` become an explicit `now : Nat` parameter, `uuidv4()`
becomes an explicit stream `fresh : Nat → String` of fresh identifiers,
the JSON snapshot file becomes a `List Task`, and thrown exceptions
become `Except`.
-/

set_option maxRecDepth 4000

namespace Shrimp

/-- Task status enumeration (`TaskStatus` in `src/types/index.ts`). -/
inductive TaskStatus where
  | PENDING
  | IN_PROGRESS
  | COMPLETED
  | BLOCKED
deriving Repr, DecidableEq

/-- Task dependency (`TaskDependency`): a reference to a prerequisite task id. -/
structure TaskDependency where
  taskId : String
deriving Repr, DecidableEq

/-- Related file type enumeration (`RelatedFileType`). -/
inductive RelatedFileType where
  | TO_MODIFY
  | REFERENCE
  | CREATE
  | DEPENDENCY
  | OTHER
deriving Repr, DecidableEq

/-- Related file record (`RelatedFile`). -/
structure RelatedFile where
  path : String
  type : RelatedFileType
  description : Option String := none
  lineStart : Option Nat := none
  lineEnd : Option Nat := none
deriving Repr, DecidableEq

/-- The task entity (`Task` in `src/types/index.ts`).  `Date` fields are
modelled as `Nat` timestamps; optional fields as `Option`. -/
structure Task where
  id : String
  name : String
  description : String
  notes : Option String := none
  status : TaskStatus
  dependencies : List TaskDependency := []
  createdAt : Nat
  updatedAt : Nat
  completedAt : Option Nat := none
  summary : Option String := none
  relatedFiles : Option (List RelatedFile) := none
  analysisResult : Option String := none
  agent : Option String := none
  implementationGuide : Option String := none
  verificationCriteria : Option String := none
deriving Repr, DecidableEq

/-- Task complexity level (`TaskComplexityLevel`). -/
inductive TaskComplexityLevel where
  | LOW
  | MEDIUM
  | HIGH
  | VERY_HIGH
deriving Repr, DecidableEq

/-- Complexity thresholds (`TaskComplexityThresholds.DESCRIPTION_LENGTH`). -/
def TaskComplexityThresholds.DESCRIPTION_LENGTH.MEDIUM : Nat := 500

def TaskComplexityThresholds.DESCRIPTION_LENGTH.HIGH : Nat := 1000

def TaskComplexityThresholds.DESCRIPTION_LENGTH.VERY_HIGH : Nat := 2000

/-- Complexity thresholds (`TaskComplexityThresholds.DEPENDENCIES_COUNT`). -/
def TaskComplexityThresholds.DEPENDENCIES_COUNT.MEDIUM : Nat := 2

def TaskComplexityThresholds.DEPENDENCIES_COUNT.HIGH : Nat := 5

def TaskComplexityThresholds.DEPENDENCIES_COUNT.VERY_HIGH : Nat := 10

/-- Complexity thresholds (`TaskComplexityThresholds.NOTES_LENGTH`). -/
def TaskComplexityThresholds.NOTES_LENGTH.MEDIUM : Nat := 200

def TaskComplexityThresholds.NOTES_LENGTH.HIGH : Nat := 500

def TaskComplexityThresholds.NOTES_LENGTH.VERY_HIGH : Nat := 1000

/-- Complexity assessment result (`TaskComplexityAssessment`). -/
structure TaskComplexityMetrics where
  descriptionLength : Nat
  dependenciesCount : Nat
  notesLength : Nat
  hasNotes : Bool
deriving Repr, DecidableEq

structure TaskComplexityAssessment where
  level : TaskComplexityLevel
  metrics : TaskComplexityMetrics
  recommendations : List String
deriving Repr, DecidableEq

/-- `getTaskById` (taskModel.ts): first task whose id matches, or null. -/
def getTaskById (tasks : List Task) (taskId : String) : Option Task :=
  tasks.find? (fun task => task.id = taskId)

/-- The first if/else-if chain of `assessTaskComplexity` (taskModel.ts
lines 662–675): the level contributed by the description length. -/
def descriptionLengthStage (descriptionLength : Nat) : TaskComplexityLevel :=
  if descriptionLength ≥ TaskComplexityThresholds.DESCRIPTION_LENGTH.VERY_HIGH then
    TaskComplexityLevel.VERY_HIGH
  else if descriptionLength ≥ TaskComplexityThresholds.DESCRIPTION_LENGTH.HIGH then
    TaskComplexityLevel.HIGH
  else if descriptionLength ≥ TaskComplexityThresholds.DESCRIPTION_LENGTH.MEDIUM then
    TaskComplexityLevel.MEDIUM
  else TaskComplexityLevel.LOW

/-- The second chain of `assessTaskComplexity` (lines 677–693): raises
the running level according to the dependency count. -/
def dependenciesCountStage (dependenciesCount : Nat) (level : TaskComplexityLevel) :
    TaskComplexityLevel :=
  if dependenciesCount ≥ TaskComplexityThresholds.DEPENDENCIES_COUNT.VERY_HIGH then
    TaskComplexityLevel.VERY_HIGH
  else if dependenciesCount ≥ TaskComplexityThresholds.DEPENDENCIES_COUNT.HIGH ∧
      level ≠ TaskComplexityLevel.VERY_HIGH then
    TaskComplexityLevel.HIGH
  else if dependenciesCount ≥ TaskComplexityThresholds.DEPENDENCIES_COUNT.MEDIUM ∧
      level ≠ TaskComplexityLevel.HIGH ∧ level ≠ TaskComplexityLevel.VERY_HIGH then
    TaskComplexityLevel.MEDIUM
  else level

/-- The third chain of `assessTaskComplexity` (lines 695–709): raises
the running level according to the notes length. -/
def notesLengthStage (notesLength : Nat) (level : TaskComplexityLevel) :
    TaskComplexityLevel :=
  if notesLength ≥ TaskComplexityThresholds.NOTES_LENGTH.VERY_HIGH then
    TaskComplexityLevel.VERY_HIGH
  else if notesLength ≥ TaskComplexityThresholds.NOTES_LENGTH.HIGH ∧
      level ≠ TaskComplexityLevel.VERY_HIGH then
    TaskComplexityLevel.HIGH
  else if notesLength ≥ TaskComplexityThresholds.NOTES_LENGTH.MEDIUM ∧
      level ≠ TaskComplexityLevel.HIGH ∧ level ≠ TaskComplexityLevel.VERY_HIGH then
    TaskComplexityLevel.MEDIUM
  else level

/-- The staged chains of `assessTaskComplexity` (lines 660–709) computing
the overall level from the three metrics. -/
def assessLevelChain (descriptionLength dependenciesCount notesLength : Nat) :
    TaskComplexityLevel :=
  notesLengthStage notesLength
    (dependenciesCountStage dependenciesCount (descriptionLengthStage descriptionLength))

/-- The fixed advisory text list of `assessTaskComplexity` (lines 712–762),
selected by the final level and augmented by sub-threshold checks. -/
def complexityRecommendations (level : TaskComplexityLevel)
    (descriptionLength dependenciesCount : Nat) : List String :=
  if level = TaskComplexityLevel.LOW then
    ["This task has low complexity and can be executed directly",
     "It is recommended to set clear completion criteria to ensure clear acceptance basis"]
  else if level = TaskComplexityLevel.MEDIUM then
    ["This task has some complexity, it is recommended to plan execution steps in detail",
     "Can be executed in phases and check progress regularly to ensure accurate understanding and complete implementation"] ++
    (if dependenciesCount > 0 then
      ["Pay attention to checking the completion status and output quality of all dependent tasks"]
     else [])
  else if level = TaskComplexityLevel.HIGH then
    ["This task has high complexity, it is recommended to conduct thorough analysis and planning first",
     "Consider splitting the task into smaller, independently executable subtasks",
     "Establish clear milestones and checkpoints to facilitate tracking progress and quality"] ++
    (if dependenciesCount > TaskComplexityThresholds.DEPENDENCIES_COUNT.MEDIUM then
      ["There are many dependent tasks, it is recommended to create a dependency diagram to ensure correct execution order"]
     else [])
  else
    ["This task has very high complexity, strongly recommend splitting into multiple independent tasks",
     "Conduct thorough analysis and planning before execution, clearly define the scope and interfaces of each subtask",
     "Perform risk assessment on the task, identify possible obstacles and develop response strategies",
     "Establish specific testing and verification criteria to ensure the output quality of each subtask"] ++
    (if descriptionLength ≥ TaskComplexityThresholds.DESCRIPTION_LENGTH.VERY_HIGH then
      ["Task description is very long, it is recommended to organize key points and create a structured execution checklist"]
     else []) ++
    (if dependenciesCount ≥ TaskComplexityThresholds.DEPENDENCIES_COUNT.HIGH then
      ["Too many dependent tasks, it is recommended to re-evaluate task boundaries to ensure reasonable task splitting"]
     else [])

/-- `assessTaskComplexity` (taskModel.ts lines 644–774). -/
def assessTaskComplexity (tasks : List Task) (taskId : String) :
    Option TaskComplexityAssessment :=
  match getTaskById tasks taskId with
  | none => none
  | some task =>
    let descriptionLength := task.description.length
    let dependenciesCount := task.dependencies.length
    let notesLength := match task.notes with
      | some n => n.length
      | none => 0
    let hasNotes := task.notes.isSome
    let level := assessLevelChain descriptionLength dependenciesCount notesLength
    some
      { level := level
        metrics :=
          { descriptionLength := descriptionLength
            dependenciesCount := dependenciesCount
            notesLength := notesLength
            hasNotes := hasNotes }
        recommendations := complexityRecommendations level descriptionLength dependenciesCount }

/-- Numeric rank of a complexity level, used to express the maximum. -/
def levelRank : TaskComplexityLevel → Nat
  | TaskComplexityLevel.LOW => 0
  | TaskComplexityLevel.MEDIUM => 1
  | TaskComplexityLevel.HIGH => 2
  | TaskComplexityLevel.VERY_HIGH => 3

/-- Maximum of two complexity levels. -/
def levelMax (a b : TaskComplexityLevel) : TaskComplexityLevel :=
  if levelRank b ≤ levelRank a then a else b

/-- A single metric mapped independently through its fixed thresholds. -/
def metricLevel (value medium high veryHigh : Nat) : TaskComplexityLevel :=
  if value ≥ veryHigh then TaskComplexityLevel.VERY_HIGH
  else if value ≥ high then TaskComplexityLevel.HIGH
  else if value ≥ medium then TaskComplexityLevel.MEDIUM
  else TaskComplexityLevel.LOW

/-- The level a task's description length maps to. -/
def descriptionMetricLevel (n : Nat) : TaskComplexityLevel :=
  metricLevel n TaskComplexityThresholds.DESCRIPTION_LENGTH.MEDIUM
    TaskComplexityThresholds.DESCRIPTION_LENGTH.HIGH
    TaskComplexityThresholds.DESCRIPTION_LENGTH.VERY_HIGH

/-- The level a task's dependency count maps to. -/
def dependenciesMetricLevel (n : Nat) : TaskComplexityLevel :=
  metricLevel n TaskComplexityThresholds.DEPENDENCIES_COUNT.MEDIUM
    TaskComplexityThresholds.DEPENDENCIES_COUNT.HIGH
    TaskComplexityThresholds.DEPENDENCIES_COUNT.VERY_HIGH

/-- The level a task's notes length maps to. -/
def notesMetricLevel (n : Nat) : TaskComplexityLevel :=
  metricLevel n TaskComplexityThresholds.NOTES_LENGTH.MEDIUM
    TaskComplexityThresholds.NOTES_LENGTH.HIGH
    TaskComplexityThresholds.NOTES_LENGTH.VERY_HIGH

theorem descriptionLengthStage_eq (d : Nat) :
    descriptionLengthStage d = descriptionMetricLevel d := rfl

theorem dependenciesCountStage_eq (c : Nat) (level : TaskComplexityLevel) :
    dependenciesCountStage c level = levelMax level (dependenciesMetricLevel c) := by
  cases level <;>
    (unfold dependenciesCountStage dependenciesMetricLevel metricLevel levelMax levelRank
      TaskComplexityThresholds.DEPENDENCIES_COUNT.MEDIUM
      TaskComplexityThresholds.DEPENDENCIES_COUNT.HIGH
      TaskComplexityThresholds.DEPENDENCIES_COUNT.VERY_HIGH) <;>
    split_ifs <;> simp_all

theorem notesLengthStage_eq (n : Nat) (level : TaskComplexityLevel) :
    notesLengthStage n level = levelMax level (notesMetricLevel n) := by
  cases level <;>
    (unfold notesLengthStage notesMetricLevel metricLevel levelMax levelRank
      TaskComplexityThresholds.NOTES_LENGTH.MEDIUM
      TaskComplexityThresholds.NOTES_LENGTH.HIGH
      TaskComplexityThresholds.NOTES_LENGTH.VERY_HIGH) <;>
    split_ifs <;> simp_all

theorem assessLevelChain_eq_max (d c n : Nat) :
    assessLevelChain d c n =
      levelMax (levelMax (descriptionMetricLevel d) (dependenciesMetricLevel c))
        (notesMetricLevel n) := by
  unfold assessLevelChain
  rw [descriptionLengthStage_eq, dependenciesCountStage_eq, notesLengthStage_eq]

/-- Claim C9: for every task, the overall complexity level returned by
`assessTaskComplexity` equals the maximum of the three levels obtained by
mapping the description length, dependency count, and notes length
independently through their fixed thresholds. -/
theorem c9_complexity_level_is_max (tasks : List Task) (taskId : String) :
    (assessTaskComplexity tasks taskId).map (fun a => a.level) =
      (getTaskById tasks taskId).map (fun task =>
        levelMax
          (levelMax (descriptionMetricLevel task.description.length)
            (dependenciesMetricLevel task.dependencies.length))
          (notesMetricLevel (match task.notes with
            | some n => n.length
            | none => 0))) := by
  unfold assessTaskComplexity
  cases getTaskById tasks taskId with
  | none => rfl
  | some task => simp [assessLevelChain_eq_max]

/-! ### Single-task store operations (`createTask`, `updateTask`, …) -/

/-- `createTask` (taskModel.ts lines 171–202), with the generated uuid and
the current time passed explicitly.  Returns the written collection and
the new task. -/
def createTask (tasks : List Task) (name description : String) (notes : Option String)
    (dependencies : List String) (relatedFiles : Option (List RelatedFile))
    (agent : Option String) (freshId : String) (now : Nat) : List Task × Task :=
  let dependencyObjects : List TaskDependency :=
    dependencies.map (fun taskId => { taskId := taskId })
  let newTask : Task :=
    { id := freshId
      name := name
      description := description
      notes := notes
      status := TaskStatus.PENDING
      dependencies := dependencyObjects
      createdAt := now
      updatedAt := now
      relatedFiles := relatedFiles
      agent := agent }
  (tasks ++ [newTask], newTask)

/-- A `Partial<Task>` update object: `some v` means the key is present
with value `v` (the callers of `updateTask` never pass `undefined`
values explicitly). -/
structure TaskUpdates where
  id : Option String := none
  name : Option String := none
  description : Option String := none
  notes : Option String := none
  status : Option TaskStatus := none
  dependencies : Option (List TaskDependency) := none
  createdAt : Option Nat := none
  completedAt : Option Nat := none
  summary : Option String := none
  relatedFiles : Option (List RelatedFile) := none
  analysisResult : Option String := none
  agent : Option String := none
  implementationGuide : Option String := none
  verificationCriteria : Option String := none
deriving Repr, DecidableEq

/-- `Object.keys(updates)`: the keys present in the update object. -/
def attemptedFields (u : TaskUpdates) : List String :=
  (if u.id.isSome then ["id"] else []) ++
  (if u.name.isSome then ["name"] else []) ++
  (if u.description.isSome then ["description"] else []) ++
  (if u.notes.isSome then ["notes"] else []) ++
  (if u.status.isSome then ["status"] else []) ++
  (if u.dependencies.isSome then ["dependencies"] else []) ++
  (if u.createdAt.isSome then ["createdAt"] else []) ++
  (if u.completedAt.isSome then ["completedAt"] else []) ++
  (if u.summary.isSome then ["summary"] else []) ++
  (if u.relatedFiles.isSome then ["relatedFiles"] else []) ++
  (if u.analysisResult.isSome then ["analysisResult"] else []) ++
  (if u.agent.isSome then ["agent"] else []) ++
  (if u.implementationGuide.isSome then ["implementationGuide"] else []) ++
  (if u.verificationCriteria.isSome then ["verificationCriteria"] else [])

/-- The `allowedFields` of `updateTask` (line 219). -/
def allowedFields : List String := ["summary", "relatedFiles"]

/-- The `disallowedFields` filter of `updateTask` (lines 222–224). -/
def disallowedFields (u : TaskUpdates) : List String :=
  (attemptedFields u).filter (fun field => ¬ allowedFields.contains field)

/-- The spread `{ ...task, ...updates, updatedAt: getLocalDate() }`. -/
def applyUpdates (t : Task) (u : TaskUpdates) (now : Nat) : Task :=
  { id := u.id.getD t.id
    name := u.name.getD t.name
    description := u.description.getD t.description
    notes := match u.notes with
      | some v => some v
      | none => t.notes
    status := u.status.getD t.status
    dependencies := u.dependencies.getD t.dependencies
    createdAt := u.createdAt.getD t.createdAt
    updatedAt := now
    completedAt := match u.completedAt with
      | some v => some v
      | none => t.completedAt
    summary := match u.summary with
      | some v => some v
      | none => t.summary
    relatedFiles := match u.relatedFiles with
      | some v => some v
      | none => t.relatedFiles
    analysisResult := match u.analysisResult with
      | some v => some v
      | none => t.analysisResult
    agent := match u.agent with
      | some v => some v
      | none => t.agent
    implementationGuide := match u.implementationGuide with
      | some v => some v
      | none => t.implementationGuide
    verificationCriteria := match u.verificationCriteria with
      | some v => some v
      | none => t.verificationCriteria }

/-- `updateTask` (taskModel.ts lines 205–240).  Returns the stored
collection after the call (unchanged when the update is rejected) and the
returned task (`none` models the `null` return; no write happens then). -/
def updateTask (tasks : List Task) (taskId : String) (updates : TaskUpdates) (now : Nat) :
    List Task × Option Task :=
  match tasks.findIdx? (fun task => task.id = taskId) with
  | none => (tasks, none)
  | some taskIndex =>
    match tasks[taskIndex]? with
    | none => (tasks, none)
    | some t =>
      let proceed : List Task × Option Task :=
        let updated := applyUpdates t updates now
        (tasks.set taskIndex updated, some updated)
      if t.status = TaskStatus.COMPLETED then
        if disallowedFields updates ≠ [] then (tasks, none)
        else proceed
      else proceed

/-- `updateTaskStatus` (lines 243–254). -/
def updateTaskStatus (tasks : List Task) (taskId : String) (status : TaskStatus) (now : Nat) :
    List Task × Option Task :=
  let updates : TaskUpdates :=
    if status = TaskStatus.COMPLETED then
      { status := some status, completedAt := some now }
    else { status := some status }
  updateTask tasks taskId updates now

/-- The update record accepted by `updateTaskContent` (lines 265–276). -/
structure ContentUpdates where
  name : Option String := none
  description : Option String := none
  notes : Option String := none
  relatedFiles : Option (List RelatedFile) := none
  dependencies : Option (List String) := none
  implementationGuide : Option String := none
  verificationCriteria : Option String := none
  agent : Option String := none
deriving Repr, DecidableEq

/-- The `updateObj` built by `updateTaskContent` (lines 291–325). -/
def contentUpdateObj (u : ContentUpdates) : TaskUpdates :=
  { name := u.name
    description := u.description
    notes := u.notes
    relatedFiles := u.relatedFiles
    dependencies := u.dependencies.map (fun deps => deps.map (fun dep => { taskId := dep }))
    implementationGuide := u.implementationGuide
    verificationCriteria := u.verificationCriteria
    agent := u.agent }

inductive ContentResult where
  | notFound
  | cannotUpdateCompleted
  | noContent (task : Task)
  | updated (task : Task)
  | errorUpdating
deriving Repr, DecidableEq

/-- `updateTaskContent` (taskModel.ts lines 265–344).  Returns the stored
collection after the call and the result. -/
def updateTaskContent (tasks : List Task) (taskId : String) (u : ContentUpdates) (now : Nat) :
    List Task × ContentResult :=
  match getTaskById tasks taskId with
  | none => (tasks, ContentResult.notFound)
  | some task =>
    if task.status = TaskStatus.COMPLETED then (tasks, ContentResult.cannotUpdateCompleted)
    else
      let updateObj := contentUpdateObj u
      if attemptedFields updateObj = [] then (tasks, ContentResult.noContent task)
      else
        match updateTask tasks taskId updateObj now with
        | (ts, some updatedTask) => (ts, ContentResult.updated updatedTask)
        | (ts, none) => (ts, ContentResult.errorUpdating)

/-- Claim C5: for every stored task with status `Completed`, any attempted
field update that touches a field outside `summary`/`relatedFiles` is
rejected (null result) and the stored collection, hence the stored task,
is left exactly as before: no write occurs.  This holds for the
`updateTask` path (which also serves `updateTaskStatus` and
`updateTaskSummary`) and for the `updateTaskContent` path, which rejects
every content update of a completed task. -/
theorem c5_completed_immutable (tasks : List Task) (taskId : String) (task : Task) :
    (∀ (updates : TaskUpdates) (now taskIndex : Nat),
      tasks.findIdx? (fun t => t.id = taskId) = some taskIndex →
      tasks[taskIndex]? = some task →
      task.status = TaskStatus.COMPLETED →
      disallowedFields updates ≠ [] →
      updateTask tasks taskId updates now = (tasks, none)) ∧
    (∀ (u : ContentUpdates) (now : Nat),
      getTaskById tasks taskId = some task →
      task.status = TaskStatus.COMPLETED →
      updateTaskContent tasks taskId u now = (tasks, ContentResult.cannotUpdateCompleted)) := by
  constructor
  · intro updates now taskIndex hIdx hGet hCompleted hDis
    unfold updateTask
    rw [hIdx]
    simp only [hGet, hCompleted, if_pos rfl]
    simp [hDis]
  · intro u now hFind hCompleted
    unfold updateTaskContent
    rw [hFind]
    simp [hCompleted]

/-- A concrete completed task used in witnesses and counterexamples. -/
def taskCompletedX : Task :=
  { id := "x1"
    name := "X"
    description := "a finished task"
    status := TaskStatus.COMPLETED
    dependencies := []
    createdAt := 1
    updatedAt := 2
    completedAt := some 2
    summary := some "done" }

theorem c5_completed_immutable_witness :
    updateTask [taskCompletedX] "x1" { name := some "Y" } 7 = ([taskCompletedX], none) ∧
    updateTaskContent [taskCompletedX] "x1" { name := some "Y" } 7 =
      ([taskCompletedX], ContentResult.cannotUpdateCompleted) :=
  ⟨(c5_completed_immutable [taskCompletedX] "x1" taskCompletedX).1
      { name := some "Y" } 7 0 (by decide) (by decide) (by decide) (by decide),
   (c5_completed_immutable [taskCompletedX] "x1" taskCompletedX).2
      { name := some "Y" } 7 (by decide) (by decide)⟩

/-! ### `canExecuteTask` -/

/-- The per-dependency test of the `canExecuteTask` loop (line 592):
`!dependencyTask || dependencyTask.status !== TaskStatus.COMPLETED`. -/
def depIncomplete (allTasks : List Task) (dep : TaskDependency) : Bool :=
  match allTasks.find? (fun t => t.id = dep.taskId) with
  | none => true
  | some dependencyTask => dependencyTask.status != TaskStatus.COMPLETED

/-- The `blockedBy` accumulation loop of `canExecuteTask` (lines 587–595). -/
def blockedByLoop (allTasks : List Task) : List TaskDependency → List String
  | [] => []
  | dep :: rest =>
    if depIncomplete allTasks dep then dep.taskId :: blockedByLoop allTasks rest
    else blockedByLoop allTasks rest

/-- `canExecuteTask` (taskModel.ts lines 569–601).  Read-only: the stored
collection is not modified. -/
def canExecuteTask (tasks : List Task) (taskId : String) : Bool × Option (List String) :=
  match getTaskById tasks taskId with
  | none => (false, none)
  | some task =>
    if task.status = TaskStatus.COMPLETED then (false, none)
    else if task.dependencies.length = 0 then (true, none)
    else
      let blockedBy := blockedByLoop tasks task.dependencies
      (blockedBy.isEmpty, if blockedBy.length > 0 then some blockedBy else none)

theorem blockedByLoop_eq_filter (allTasks : List Task) (deps : List TaskDependency) :
    blockedByLoop allTasks deps =
      (deps.filter (fun d => depIncomplete allTasks d)).map (fun d => d.taskId) := by
  induction deps with
  | nil => rfl
  | cons dep rest ih =>
    unfold blockedByLoop
    by_cases h : depIncomplete allTasks dep
    · simp [h, ih, List.filter_cons]
    · simp only [Bool.not_eq_true] at h
      simp [h, ih, List.filter_cons]

/-- Counterexample to claim C6 as stated: a stored `Completed` task has
all of its dependencies (vacuously) completed, yet `canExecuteTask`
returns `false` (and no blocking list), not `true`. -/
theorem c6_counterexample :
    taskCompletedX.dependencies = [] ∧
    canExecuteTask [taskCompletedX] taskCompletedX.id = (false, none) := by
  constructor
  · rfl
  · decide

/-- Claim C6, amended: for every stored task whose status is not
`Completed`: if at least one dependency is missing or not completed,
`canExecuteTask` returns `false` together with exactly the ids of those
incomplete dependencies; if all dependencies are completed it returns
`(true, none)`.  (`canExecuteTask` is read-only, so no stored field
changes.)  For a `Completed` stored task the function returns
`(false, none)` regardless of its dependencies. -/
theorem c6_dependency_gating (tasks : List Task) (taskId : String) (task : Task)
    (hFind : getTaskById tasks taskId = some task)
    (hNotCompleted : task.status ≠ TaskStatus.COMPLETED) :
    (task.dependencies.any (fun d => depIncomplete tasks d) = true →
      canExecuteTask tasks taskId =
        (false, some ((task.dependencies.filter (fun d => depIncomplete tasks d)).map
          (fun d => d.taskId)))) ∧
    (task.dependencies.all (fun d => ! depIncomplete tasks d) = true →
      canExecuteTask tasks taskId = (true, none)) := by
  unfold canExecuteTask
  rw [hFind]
  simp only [if_neg hNotCompleted, blockedByLoop_eq_filter]
  constructor
  · intro hAny
    rcases List.any_eq_true.mp hAny with ⟨d, hd, hinc⟩
    have hne : task.dependencies.filter (fun d => depIncomplete tasks d) ≠ [] := by
      intro hnil
      have := List.mem_filter.mpr ⟨hd, hinc⟩
      rw [hnil] at this
      exact List.not_mem_nil d this
    have hlen : task.dependencies.length ≠ 0 := by
      intro h0
      rw [List.length_eq_zero] at h0
      rw [h0] at hd
      exact List.not_mem_nil d hd
    have hflen : 0 < (task.dependencies.filter (fun d => depIncomplete tasks d)).length :=
      List.length_pos.mpr hne
    simp only [if_neg hlen]
    simp [List.isEmpty_iff, hne, hflen]
  · intro hAll
    have hfil : task.dependencies.filter (fun d => depIncomplete tasks d) = [] := by
      apply List.filter_eq_nil_iff.mpr
      intro d hd
      have := List.all_eq_true.mp hAll d hd
      simp only [Bool.not_eq_true'] at this
      simp [this]
    by_cases hlen : task.dependencies.length = 0
    · simp [hlen]
    · simp [if_neg hlen, hfil]

/-- A pending task blocked by a missing dependency, for the C6 witness. -/
def taskPendingBlocked : Task :=
  { id := "p1"
    name := "P"
    description := "a pending task"
    status := TaskStatus.PENDING
    dependencies := [{ taskId := "missing" }]
    createdAt := 0
    updatedAt := 0 }

theorem c6_dependency_gating_witness :
    canExecuteTask [taskPendingBlocked] "p1" = (false, some ["missing"]) ∧
    canExecuteTask [] "p1" = (false, none) ∧
    canExecuteTask [{ taskPendingBlocked with dependencies := [] }] "p1" = (true, none) := by
  refine ⟨?_, by decide, ?_⟩
  · exact (c6_dependency_gating [taskPendingBlocked] "p1" taskPendingBlocked
      (by decide) (by decide)).1 (by decide)
  · exact (c6_dependency_gating [{ taskPendingBlocked with dependencies := [] }] "p1"
      { taskPendingBlocked with dependencies := [] } (by decide) (by decide)).2 (by decide)

/-! ### Batch reconciliation (`batchCreateOrUpdateTasks`, taskModel.ts 378–566) -/

/-- The four update strategies of `batchCreateOrUpdateTasks`. -/
inductive UpdateMode where
  | append
  | overwrite
  | selective
  | clearAllTasks
deriving Repr, DecidableEq

/-- An element of `taskDataList`: an incoming task draft. -/
structure TaskDraft where
  name : String
  description : String
  notes : Option String := none
  dependencies : Option (List String) := none
  relatedFiles : Option (List RelatedFile) := none
  implementationGuide : Option String := none
  verificationCriteria : Option String := none
  agent : Option String := none
deriving Repr, DecidableEq

/-- A JS `Map<string, string>` restricted to the operations the source
uses (`set`, `get`, `has`), as an association list. -/
abbrev NameMap := List (String × String)

/-- `Map.set`: overwrite the value under an existing key, else append. -/
def mapSet (m : NameMap) (k v : String) : NameMap :=
  if m.any (fun p => p.1 = k) then m.map (fun p => if p.1 = k then (k, v) else p)
  else m ++ [(k, v)]

/-- `Map.get`. -/
def mapGet? (m : NameMap) (k : String) : Option String :=
  (m.find? (fun p => p.1 = k)).map (fun p => p.2)

/-- `Map.has`. -/
def mapHas (m : NameMap) (k : String) : Bool :=
  m.any (fun p => p.1 = k)

/-- The character class of the uuid regex with the `i` flag: `0-9a-fA-F`. -/
def isHexDigitChar (c : Char) : Bool :=
  (decide ('0' ≤ c) && decide (c ≤ '9')) ||
  (decide ('a' ≤ c) && decide (c ≤ 'f')) ||
  (decide ('A' ≤ c) && decide (c ≤ 'F'))

/-- Consume exactly `n` hex digits, returning the remaining characters. -/
def hexRun : Nat → List Char → Option (List Char)
  | 0, cs => some cs
  | _ + 1, [] => none
  | n + 1, c :: cs => if isHexDigitChar c then hexRun n cs else none

/-- Groups of hex digits separated by single dashes, consuming the whole
input (anchored on both ends, as the regex is). -/
def uuidGroupsCheck : List Nat → List Char → Bool
  | [], cs => cs.isEmpty
  | [n], cs =>
    match hexRun n cs with
    | some [] => true
    | _ => false
  | n :: ns, cs =>
    match hexRun n cs with
    | some ('-' :: rest) => uuidGroupsCheck ns rest
    | _ => false

/-- The uuid-syntax test of the dependency resolver (taskModel.ts lines
531–535): dash-separated hex groups of sizes 8, 4, 4, 4, 12,
case-insensitive, anchored. -/
def isUuidFormat (s : String) : Bool :=
  uuidGroupsCheck [8, 4, 4, 4, 12] s.data

/-- The mutable state of the first loop of `batchCreateOrUpdateTasks`:
`tasksToKeep`, `taskNameToIdMap`, `newTasks`, and the number of uuids
generated so far (feeding the explicit `fresh` stream). -/
structure BatchState where
  tasksToKeep : List Task
  nameMap : NameMap
  newTasks : List Task
  uuidCount : Nat

/-- The in-place update of an existing task by a name-matched draft
(lines 455–478): id, creation time, status, completion data and
dependencies are preserved; `relatedFiles` only when the draft carries
some. -/
def selectiveUpdatedTask (taskToUpdate : Task) (taskData : TaskDraft)
    (globalAnalysisResult : Option String) (now : Nat) : Task :=
  let updatedTask : Task :=
    { taskToUpdate with
      name := taskData.name
      description := taskData.description
      notes := taskData.notes
      updatedAt := now
      implementationGuide := taskData.implementationGuide
      verificationCriteria := taskData.verificationCriteria
      analysisResult := globalAnalysisResult
      agent := taskData.agent }
  match taskData.relatedFiles with
  | some relatedFiles => { updatedTask with relatedFiles := some relatedFiles }
  | none => updatedTask

/-- One iteration of the first loop of `batchCreateOrUpdateTasks`
(lines 439–515).  In selective mode a draft whose name is mapped to an
existing `Completed` task falls through both branches: nothing is added
to `newTasks` for it. -/
def batchStep (existingTasks : List Task) (updateMode : UpdateMode)
    (globalAnalysisResult : Option String) (fresh : Nat → String) (now : Nat)
    (st : BatchState) (taskData : TaskDraft) : BatchState :=
  if (updateMode == UpdateMode.selective) && mapHas st.nameMap taskData.name then
    match mapGet? st.nameMap taskData.name with
    | none => st
    | some existingTaskId =>
      match existingTasks.findIdx? (fun task => task.id = existingTaskId) with
      | none => st
      | some existingTaskIndex =>
        match existingTasks[existingTaskIndex]? with
        | none => st
        | some taskToUpdate =>
          if taskToUpdate.status ≠ TaskStatus.COMPLETED then
            { st with
              newTasks := st.newTasks ++
                [selectiveUpdatedTask taskToUpdate taskData globalAnalysisResult now]
              tasksToKeep := st.tasksToKeep.filter (fun task => task.id ≠ existingTaskId) }
          else st
  else
    let newTaskId := fresh st.uuidCount
    let newTask : Task :=
      { id := newTaskId
        name := taskData.name
        description := taskData.description
        notes := taskData.notes
        status := TaskStatus.PENDING
        dependencies := []
        createdAt := now
        updatedAt := now
        relatedFiles := taskData.relatedFiles
        implementationGuide := taskData.implementationGuide
        verificationCriteria := taskData.verificationCriteria
        analysisResult := globalAnalysisResult
        agent := taskData.agent }
    { st with
      nameMap := mapSet st.nameMap taskData.name newTaskId
      newTasks := st.newTasks ++ [newTask]
      uuidCount := st.uuidCount + 1 }

/-- The inner dependency-resolution loop (lines 526–553): a reference of
uuid syntax is kept only if it is the id of a task in
`tasksToKeep ++ newTasks`; any other reference is looked up in the
name-to-id map; unresolved references are skipped. -/
def resolveDepsLoop (nameMap : NameMap) (idUniverse : List Task) :
    List String → List TaskDependency
  | [] => []
  | dependencyName :: rest =>
    if ! isUuidFormat dependencyName then
      if mapHas nameMap dependencyName then
        { taskId := (mapGet? nameMap dependencyName).getD dependencyName } ::
          resolveDepsLoop nameMap idUniverse rest
      else resolveDepsLoop nameMap idUniverse rest
    else
      if idUniverse.any (fun task => task.id = dependencyName) then
        { taskId := dependencyName } :: resolveDepsLoop nameMap idUniverse rest
      else resolveDepsLoop nameMap idUniverse rest

/-- The second loop of `batchCreateOrUpdateTasks` (lines 518–557): for
draft `i`, resolve its declared dependencies and store them on
`newTasks[i]`.  When `newTasks` is shorter than `taskDataList` (a draft
was skipped) and the draft has a nonempty dependency list, the original
assignment `newTask.dependencies = …` is a `TypeError` on `undefined`:
the whole call throws, modelled by `Except.error`. -/
def processDeps (tasksToKeep : List Task) (nameMap : NameMap) :
    List TaskDraft → Nat → List Task → Except Unit (List Task)
  | [], _, newTasks => Except.ok newTasks
  | taskData :: rest, i, newTasks =>
    match taskData.dependencies with
    | some deps =>
      if deps.length > 0 then
        let resolvedDependencies := resolveDepsLoop nameMap (tasksToKeep ++ newTasks) deps
        match newTasks[i]? with
        | some newTask =>
          processDeps tasksToKeep nameMap rest (i + 1)
            (newTasks.set i { newTask with dependencies := resolvedDependencies })
        | none => Except.error ()
      else processDeps tasksToKeep nameMap rest (i + 1) newTasks
    | none => processDeps tasksToKeep nameMap rest (i + 1) newTasks

/-- The `tasksToKeep` initialisation per update mode (lines 396–418). -/
def initialTasksToKeep (existingTasks : List Task) (taskDataList : List TaskDraft)
    (updateMode : UpdateMode) : List Task :=
  match updateMode with
  | UpdateMode.append => existingTasks
  | UpdateMode.overwrite =>
    existingTasks.filter (fun task => task.status = TaskStatus.COMPLETED)
  | UpdateMode.selective =>
    let updateTaskNames := taskDataList.map (fun task => task.name)
    existingTasks.filter (fun task => ! updateTaskNames.contains task.name)
  | UpdateMode.clearAllTasks => []

/-- The `taskNameToIdMap` initialisation (lines 421–434): in selective
mode all existing tasks are recorded first, then the kept tasks. -/
def initialNameMap (existingTasks tasksToKeep : List Task) (updateMode : UpdateMode) :
    NameMap :=
  let taskNameToIdMap : NameMap :=
    if updateMode = UpdateMode.selective then
      existingTasks.foldl (fun m task => mapSet m task.name task.id) []
    else []
  tasksToKeep.foldl (fun m task => mapSet m task.name task.id) taskNameToIdMap

/-- The state after the first loop of `batchCreateOrUpdateTasks`. -/
def batchLoopState (existingTasks : List Task) (taskDataList : List TaskDraft)
    (updateMode : UpdateMode) (globalAnalysisResult : Option String)
    (fresh : Nat → String) (now : Nat) : BatchState :=
  let tasksToKeep := initialTasksToKeep existingTasks taskDataList updateMode
  taskDataList.foldl
    (batchStep existingTasks updateMode globalAnalysisResult fresh now)
    { tasksToKeep := tasksToKeep
      nameMap := initialNameMap existingTasks tasksToKeep updateMode
      newTasks := []
      uuidCount := 0 }

/-- `batchCreateOrUpdateTasks` (taskModel.ts lines 378–566), with the
uuid stream and the current time passed explicitly.  On success returns
the full written collection (`tasksToKeep ++ newTasks`, what `writeTasks`
persists) and the returned `newTasks`. -/
def batchCreateOrUpdateTasks (existingTasks : List Task) (taskDataList : List TaskDraft)
    (updateMode : UpdateMode) (globalAnalysisResult : Option String)
    (fresh : Nat → String) (now : Nat) : Except Unit (List Task × List Task) :=
  let st := batchLoopState existingTasks taskDataList updateMode globalAnalysisResult
    fresh now
  match processDeps st.tasksToKeep st.nameMap taskDataList 0 st.newTasks with
  | Except.ok finalNewTasks => Except.ok (st.tasksToKeep ++ finalNewTasks, finalNewTasks)
  | Except.error e => Except.error e

/-- The draft submitted against the completed task `taskCompletedX`. -/
def draftX : TaskDraft := { name := "X", description := "replacement for X" }

/-- Claim C1 is violated by the code: in selective mode, a draft whose
name matches an existing `Completed` task is silently dropped (no new
task is created from it) and the matched completed task is removed from
the resulting collection (it was filtered out of `tasksToKeep` and never
re-added).  The result here is the empty collection instead of the
claimed retained task plus a new `Pending` task. -/
theorem c1_selective_completed_match_loses_tasks :
    taskCompletedX.status = TaskStatus.COMPLETED ∧
    draftX.name = taskCompletedX.name ∧
    batchCreateOrUpdateTasks [taskCompletedX] [draftX] UpdateMode.selective none
      (fun _ => "fresh-id") 9 = Except.ok ([], []) :=
  ⟨rfl, rfl, rfl⟩

/-- A selective-mode draft carrying a dependency, name-matching the
completed task `taskCompletedX`. -/
def draftXdep : TaskDraft :=
  { name := "X", description := "updated X", dependencies := some ["B"] }

/-- A dependency-free draft for a brand-new task `B`. -/
def draftB : TaskDraft := { name := "B", description := "a new task B" }

/-- The task the code actually produces from `draftB` in the C2 run:
it carries `draftXdep`'s resolved dependency list, so `B` depends on
itself. -/
def taskBWrong : Task :=
  { id := "b1"
    name := "B"
    description := "a new task B"
    status := TaskStatus.PENDING
    dependencies := [{ taskId := "b1" }]
    createdAt := 9
    updatedAt := 9 }

/-- Claim C2 is violated by the code: the dependency loop pairs
`taskDataList[i]` with `newTasks[i]`, but in selective mode the skipped
draft `draftXdep` produced no entry in `newTasks`, so `draftXdep`'s
dependency list (`["B"]`) is attached to the task created from `draftB`
— which therefore ends up depending on itself. -/
theorem c2_dependency_misalignment :
    draftB.dependencies = none ∧
    draftXdep.dependencies = some ["B"] ∧
    batchCreateOrUpdateTasks [taskCompletedX] [draftXdep, draftB] UpdateMode.selective none
      (fun k => if k = 0 then "b1" else "unused") 9 =
      Except.ok ([taskBWrong], [taskBWrong]) ∧
    taskBWrong.dependencies = [{ taskId := taskBWrong.id }] :=
  ⟨rfl, rfl, rfl, rfl⟩

/-! ### Dependency reference resolution (claim C7) -/

/-- A name that itself matches the uuid syntax. -/
def uuidLikeName : String := "00000000-0000-0000-0000-000000000000"

/-- A draft whose name has uuid syntax. -/
def draftUuidNamed : TaskDraft :=
  { name := uuidLikeName, description := "task named like a uuid" }

/-- A draft that declares a dependency on `uuidLikeName` — as a name. -/
def draftDependsOnUuidName : TaskDraft :=
  { name := "B", description := "depends by name on the first draft"
    dependencies := some [uuidLikeName] }

/-- The two tasks the append run actually produces. -/
def taskFromUuidNamedDraft : Task :=
  { id := "11111111-1111-4111-8111-111111111111"
    name := uuidLikeName
    description := "task named like a uuid"
    status := TaskStatus.PENDING
    dependencies := []
    createdAt := 3
    updatedAt := 3 }

def taskFromDependsDraft : Task :=
  { id := "22222222-2222-4222-8222-222222222222"
    name := "B"
    description := "depends by name on the first draft"
    status := TaskStatus.PENDING
    dependencies := []
    createdAt := 3
    updatedAt := 3 }

/-- Counterexample to claim C7 as stated: the reference `uuidLikeName`
matches the canonical id syntax but is no task's id, and it **is** a name
in the combined name-to-id map (the first draft's name, mapped to
`"11111111-…"`); the claim says it then resolves to the mapped id, but
the code drops the edge — a uuid-syntax reference is never looked up as a
name.  The produced task `B` has an empty dependency list. -/
theorem c7_counterexample :
    isUuidFormat uuidLikeName = true ∧
    taskFromUuidNamedDraft.name = uuidLikeName ∧
    taskFromUuidNamedDraft.id ≠ uuidLikeName ∧
    taskFromDependsDraft.id ≠ uuidLikeName ∧
    batchCreateOrUpdateTasks [] [draftUuidNamed, draftDependsOnUuidName] UpdateMode.append
      none
      (fun k => if k = 0 then "11111111-1111-4111-8111-111111111111"
                else "22222222-2222-4222-8222-222222222222") 3 =
      Except.ok ([taskFromUuidNamedDraft, taskFromDependsDraft],
        [taskFromUuidNamedDraft, taskFromDependsDraft]) ∧
    taskFromDependsDraft.dependencies = [] := by
  refine ⟨by decide, rfl, by decide, by decide, rfl, rfl⟩

/-- The resolution rule as the amended claim words it: a uuid-syntax
reference resolves to itself exactly when it is an id in the working set
and is otherwise dropped (without any name fallback); a non-uuid-syntax
reference resolves through the name-to-id map or is dropped. -/
def resolveRefSpec (nameMap : NameMap) (idUniverse : List Task) (reference : String) :
    Option String :=
  if isUuidFormat reference then
    if idUniverse.any (fun task => task.id = reference) then some reference else none
  else mapGet? nameMap reference

theorem mapHas_eq_isSome (m : NameMap) (k : String) :
    mapHas m k = (mapGet? m k).isSome := by
  unfold mapHas mapGet?
  induction m with
  | nil => rfl
  | cons p rest ih =>
    by_cases h : p.1 = k
    · simp [List.any_cons, List.find?_cons, h]
    · simp [List.any_cons, List.find?_cons, h, ih]

/-- Claim C7, amended: every dependency reference is resolved
individually and totally — resolution never fails the batch; a reference
with canonical id syntax resolves to itself when it is the id of a task
in the merged working set and is dropped otherwise (name lookup is not
attempted for id-syntax references); any other reference resolves to its
image in the combined name-to-id map and is dropped when absent. -/
theorem c7_resolution_rule (nameMap : NameMap) (idUniverse : List Task)
    (deps : List String) :
    resolveDepsLoop nameMap idUniverse deps =
      (deps.filterMap (resolveRefSpec nameMap idUniverse)).map
        (fun taskId => { taskId := taskId }) := by
  induction deps with
  | nil => rfl
  | cons dependencyName rest ih =>
    unfold resolveDepsLoop
    rw [List.filterMap_cons]
    cases hu : isUuidFormat dependencyName with
    | true =>
      cases he : idUniverse.any (fun task => task.id = dependencyName) with
      | true =>
        have hspec : resolveRefSpec nameMap idUniverse dependencyName =
            some dependencyName := by
          have he' := List.any_eq_true.mp he
          simp only [decide_eq_true_eq] at he'
          simp [resolveRefSpec, hu, he']
        rw [hspec]
        simp [hu, he, ih]
      | false =>
        have hspec : resolveRefSpec nameMap idUniverse dependencyName = none := by
          have he' : ¬ ∃ task ∈ idUniverse, task.id = dependencyName := by
            intro hex
            have : idUniverse.any (fun task => task.id = dependencyName) = true := by
              rcases hex with ⟨task, hmem, hid⟩
              exact List.any_eq_true.mpr ⟨task, hmem, by simp [hid]⟩
            rw [this] at he
            exact Bool.true_eq_false.mp he
          simp [resolveRefSpec, hu, he']
        rw [hspec]
        simp [hu, he, ih]
    | false =>
      have hrs : resolveRefSpec nameMap idUniverse dependencyName =
          mapGet? nameMap dependencyName := by
        simp [resolveRefSpec, hu]
      rw [hrs]
      cases hget : mapGet? nameMap dependencyName with
      | some mapped =>
        have hhas : mapHas nameMap dependencyName = true := by
          rw [mapHas_eq_isSome, hget]
          rfl
        simp [hu, hhas, hget, ih]
      | none =>
        have hhas : mapHas nameMap dependencyName = false := by
          rw [mapHas_eq_isSome, hget]
          rfl
        simp [hu, hhas, ih]

/-! ### Claim C10: brand-new tasks start Pending -/

/-- A task either reuses the id of an existing task (a selective in-place
update) or is brand-new and `Pending`. -/
def NewOrReused (existingTasks : List Task) (t : Task) : Prop :=
  (∃ e ∈ existingTasks, t.id = e.id) ∨ t.status = TaskStatus.PENDING

/-- Invariant of the first batch loop. -/
def BatchInv (existingTasks : List Task) (st : BatchState) : Prop :=
  (∀ t ∈ st.tasksToKeep, t ∈ existingTasks) ∧
  (∀ t ∈ st.newTasks, NewOrReused existingTasks t)

theorem foldl_preserves {α σ : Type} (P : σ → Prop) (f : σ → α → σ)
    (hstep : ∀ s a, P s → P (f s a)) :
    ∀ (l : List α) (s : σ), P s → P (l.foldl f s) := by
  intro l
  induction l with
  | nil => intro s hs; exact hs
  | cons a rest ih => intro s hs; exact ih (f s a) (hstep s a hs)

theorem selectiveUpdatedTask_id (taskToUpdate : Task) (taskData : TaskDraft)
    (globalAnalysisResult : Option String) (now : Nat) :
    (selectiveUpdatedTask taskToUpdate taskData globalAnalysisResult now).id =
      taskToUpdate.id := by
  unfold selectiveUpdatedTask
  cases taskData.relatedFiles <;> rfl

theorem batchStep_inv (existingTasks : List Task) (updateMode : UpdateMode)
    (globalAnalysisResult : Option String) (fresh : Nat → String) (now : Nat)
    (st : BatchState) (taskData : TaskDraft) (h : BatchInv existingTasks st) :
    BatchInv existingTasks
      (batchStep existingTasks updateMode globalAnalysisResult fresh now st taskData) := by
  obtain ⟨hkeep, hnew⟩ := h
  unfold batchStep
  split
  · split
    · exact ⟨hkeep, hnew⟩
    · split
      · exact ⟨hkeep, hnew⟩
      · split
        · exact ⟨hkeep, hnew⟩
        · next taskToUpdate hget =>
          split
          · refine ⟨?_, ?_⟩
            · intro t ht
              exact hkeep t (List.mem_of_mem_filter ht)
            · intro t ht
              rcases List.mem_append.mp ht with hin | hu
              · exact hnew t hin
              · have ht' : t = selectiveUpdatedTask taskToUpdate taskData
                    globalAnalysisResult now := by
                  simpa using hu
                left
                refine ⟨taskToUpdate, List.getElem?_mem hget, ?_⟩
                rw [ht', selectiveUpdatedTask_id]
          · exact ⟨hkeep, hnew⟩
  · refine ⟨hkeep, ?_⟩
    intro t ht
    rcases List.mem_append.mp ht with hin | hu
    · exact hnew t hin
    · right
      have ht' := List.mem_singleton.mp hu
      rw [ht']

theorem initialTasksToKeep_subset (existingTasks : List Task)
    (taskDataList : List TaskDraft) (updateMode : UpdateMode) :
    ∀ t ∈ initialTasksToKeep existingTasks taskDataList updateMode, t ∈ existingTasks := by
  intro t ht
  unfold initialTasksToKeep at ht
  cases updateMode with
  | append => exact ht
  | overwrite => exact List.mem_of_mem_filter ht
  | selective => exact List.mem_of_mem_filter ht
  | clearAllTasks => exact absurd ht (List.not_mem_nil t)

theorem batchLoopState_inv (existingTasks : List Task) (taskDataList : List TaskDraft)
    (updateMode : UpdateMode) (globalAnalysisResult : Option String)
    (fresh : Nat → String) (now : Nat) :
    BatchInv existingTasks
      (batchLoopState existingTasks taskDataList updateMode globalAnalysisResult
        fresh now) := by
  unfold batchLoopState
  apply foldl_preserves (BatchInv existingTasks)
    (batchStep existingTasks updateMode globalAnalysisResult fresh now)
    (fun s a hs => batchStep_inv existingTasks updateMode globalAnalysisResult fresh now
      s a hs)
  constructor
  · exact initialTasksToKeep_subset existingTasks taskDataList updateMode
  · intro t ht
    exact absurd ht (List.not_mem_nil t)

theorem processDeps_ok_preserves (tasksToKeep : List Task) (nameMap : NameMap)
    (P : Task → Prop)
    (hP : ∀ (t : Task) (deps : List TaskDependency),
      P t → P { t with dependencies := deps }) :
    ∀ (drafts : List TaskDraft) (i : Nat) (newTasks res : List Task),
      (∀ t ∈ newTasks, P t) →
      processDeps tasksToKeep nameMap drafts i newTasks = Except.ok res →
      ∀ t ∈ res, P t := by
  intro drafts
  induction drafts with
  | nil =>
    intro i newTasks res hall h
    unfold processDeps at h
    injection h with h
    rw [← h]
    exact hall
  | cons taskData rest ih =>
    intro i newTasks res hall h
    unfold processDeps at h
    rcases hd : taskData.dependencies with _ | deps
    · rw [hd] at h
      dsimp only at h
      exact ih (i + 1) newTasks res hall h
    · rw [hd] at h
      dsimp only at h
      by_cases hlen : deps.length > 0
      · rw [if_pos hlen] at h
        rcases hE : newTasks[i]? with _ | nt
        · rw [hE] at h
          exact absurd h (by simp)
        · rw [hE] at h
          dsimp only at h
          refine ih (i + 1) _ res ?_ h
          intro t ht
          rcases List.mem_or_eq_of_mem_set ht with hin | heq
          · exact hall t hin
          · rw [heq]
            exact hP nt _ (hall nt (List.getElem?_mem hE))
      · rw [if_neg hlen] at h
        exact ih (i + 1) newTasks res hall h

/-- Claim C10: every task added as a brand-new task — by `createTask` or
by `batchCreateOrUpdateTasks` under any strategy — is created with
status `Pending`.  For the batch case: any task of the resulting
collection whose id is not the id of any pre-existing task (i.e. any
brand-new task; selective in-place updates keep their existing ids) has
status `Pending`. -/
theorem c10_new_tasks_start_pending :
    (∀ (tasks : List Task) (name description : String) (notes : Option String)
        (dependencies : List String) (relatedFiles : Option (List RelatedFile))
        (agent : Option String) (freshId : String) (now : Nat),
      ((createTask tasks name description notes dependencies relatedFiles agent
          freshId now).2).status = TaskStatus.PENDING) ∧
    (∀ (existingTasks : List Task) (taskDataList : List TaskDraft)
        (updateMode : UpdateMode) (globalAnalysisResult : Option String)
        (fresh : Nat → String) (now : Nat) (allTasks newTasks : List Task),
      batchCreateOrUpdateTasks existingTasks taskDataList updateMode
        globalAnalysisResult fresh now = Except.ok (allTasks, newTasks) →
      ∀ t ∈ allTasks, (∀ e ∈ existingTasks, t.id ≠ e.id) →
        t.status = TaskStatus.PENDING) := by
  constructor
  · intro tasks name description notes dependencies relatedFiles agent freshId now
    rfl
  · intro existingTasks taskDataList updateMode globalAnalysisResult fresh now
      allTasks newTasks h t ht hne
    unfold batchCreateOrUpdateTasks at h
    dsimp only at h
    have hinv := batchLoopState_inv existingTasks taskDataList updateMode
      globalAnalysisResult fresh now
    set st := batchLoopState existingTasks taskDataList updateMode globalAnalysisResult
      fresh now with hst
    rcases hpd : processDeps st.tasksToKeep st.nameMap taskDataList 0 st.newTasks
      with e | fin
    · rw [hpd] at h
      exact absurd h (by simp)
    · rw [hpd] at h
      injection h with h
      obtain ⟨h1, h2⟩ := Prod.mk.injEq .. |>.mp h
      rw [← h1] at ht
      rcases List.mem_append.mp ht with hk | hf
      · have := hinv.1 t hk
        exact absurd rfl (hne t this)
      · have hres := processDeps_ok_preserves st.tasksToKeep st.nameMap
          (NewOrReused existingTasks)
          (fun u deps hu => by
            unfold NewOrReused at hu ⊢
            simpa using hu)
          taskDataList 0 st.newTasks fin hinv.2 hpd t hf
        rcases hres with ⟨e, he, hid⟩ | hp
        · exact absurd hid (hne e he)
        · exact hp

/-- The task produced by the C10 batch witness run. -/
def taskBNew : Task :=
  { id := "b2"
    name := "B"
    description := "a new task B"
    status := TaskStatus.PENDING
    dependencies := []
    createdAt := 9
    updatedAt := 9 }

theorem c10_new_tasks_start_pending_witness :
    ((createTask [] "A" "first task" none [] none none "id0" 0).2).status =
      TaskStatus.PENDING ∧
    taskBNew.status = TaskStatus.PENDING :=
  ⟨c10_new_tasks_start_pending.1 [] "A" "first task" none [] none none "id0" 0,
   c10_new_tasks_start_pending.2 [] [draftB] UpdateMode.append none (fun _ => "b2") 9
     [taskBNew] [taskBNew] rfl taskBNew (by simp)
     (fun e he => absurd he (List.not_mem_nil e))⟩

/-! ### Claim C4: duplicate draft names reject the whole batch
(`splitTasksRaw`, src/tools/task/splitTasksRaw.ts lines 156–267) -/

/-- The duplicate-name scan of `splitTasksRaw` (lines 158–172): walk the
drafts with a set of seen names, reporting a duplicate as soon as a name
repeats. -/
def hasDupAux (seen : List String) : List TaskDraft → Bool
  | [] => false
  | task :: rest =>
    if seen.contains task.name then true else hasDupAux (task.name :: seen) rest

def hasDuplicateName (tasks : List TaskDraft) : Bool :=
  hasDupAux [] tasks

inductive SplitOutcome where
  | duplicateNameError
  | created (tasks : List Task)
  | creationFailed
deriving Repr

/-- The core flow of `splitTasksRaw` after parsing and schema validation:
the duplicate-name check runs before any mutation; `clearAllTasks` first
resets the stored collection (backing up completed tasks to the memory
directory, not modelled) and then appends; other modes call
`batchCreateOrUpdateTasks` directly.  Returns the stored collection
after the call and the outcome. -/
def splitTasksRawModel (store : List Task) (tasks : List TaskDraft)
    (updateMode : UpdateMode) (globalAnalysisResult : Option String)
    (fresh : Nat → String) (now : Nat) : List Task × SplitOutcome :=
  if hasDuplicateName tasks then (store, SplitOutcome.duplicateNameError)
  else if updateMode = UpdateMode.clearAllTasks then
    let clearedStore : List Task := []
    match batchCreateOrUpdateTasks clearedStore tasks UpdateMode.append
        globalAnalysisResult fresh now with
    | Except.ok (allTasks, created) => (allTasks, SplitOutcome.created created)
    | Except.error _ => (clearedStore, SplitOutcome.creationFailed)
  else
    match batchCreateOrUpdateTasks store tasks updateMode globalAnalysisResult
        fresh now with
    | Except.ok (allTasks, created) => (allTasks, SplitOutcome.created created)
    | Except.error _ => (store, SplitOutcome.creationFailed)

theorem hasDupAux_eq_false (seen : List String) (ts : List TaskDraft)
    (h : hasDupAux seen ts = false) :
    (∀ t ∈ ts, ¬ seen.contains t.name = true) ∧ (ts.map TaskDraft.name).Nodup := by
  induction ts generalizing seen with
  | nil => exact ⟨fun t ht => absurd ht (List.not_mem_nil t), List.nodup_nil⟩
  | cons task rest ih =>
    unfold hasDupAux at h
    by_cases hc : seen.contains task.name = true
    · rw [if_pos hc] at h
      exact absurd h (by simp)
    · rw [if_neg hc] at h
      obtain ⟨hseen, hnodup⟩ := ih (task.name :: seen) h
      constructor
      · intro t ht
        rcases List.mem_cons.mp ht with rfl | hmem
        · exact hc
        · intro hcon
          refine hseen t hmem ?_
          simp only [List.contains_cons, Bool.or_eq_true, beq_iff_eq]
          exact Or.inr hcon
      · rw [List.map_cons, List.nodup_cons]
        constructor
        · intro hmem
          rcases List.mem_map.mp hmem with ⟨t, htr, hname⟩
          refine hseen t htr ?_
          simp only [List.contains_cons, Bool.or_eq_true, beq_iff_eq]
          exact Or.inl hname
        · exact hnodup

theorem duplicate_name_detected (tasks : List TaskDraft)
    (h : ¬ (tasks.map TaskDraft.name).Nodup) : hasDuplicateName tasks = true := by
  cases hd : hasDuplicateName tasks with
  | true => rfl
  | false => exact absurd (hasDupAux_eq_false [] tasks hd).2 h

/-- Claim C4: a batch submitted to the reconcile tool containing two
drafts with the same name (its name list is not `Nodup`) is rejected as
a duplicate-name validation error before any strategy runs, and the
stored collection is returned unchanged — nothing is written. -/
theorem c4_duplicate_names_rejected (store : List Task) (tasks : List TaskDraft)
    (updateMode : UpdateMode) (globalAnalysisResult : Option String)
    (fresh : Nat → String) (now : Nat)
    (hdup : ¬ (tasks.map TaskDraft.name).Nodup) :
    splitTasksRawModel store tasks updateMode globalAnalysisResult fresh now =
      (store, SplitOutcome.duplicateNameError) := by
  unfold splitTasksRawModel
  rw [if_pos (duplicate_name_detected tasks hdup)]

theorem c4_duplicate_names_rejected_witness :
    splitTasksRawModel [taskCompletedX]
      [{ name := "X", description := "first" }, { name := "X", description := "second" }]
      UpdateMode.append none (fun _ => "n1") 4 =
      ([taskCompletedX], SplitOutcome.duplicateNameError) :=
  c4_duplicate_names_rejected [taskCompletedX]
    [{ name := "X", description := "first" }, { name := "X", description := "second" }]
    UpdateMode.append none (fun _ => "n1") 4 (by decide)

/-! ### Claim C3: snapshot write vs. the git audit step
(`writeTasks`, `initGitIfNeeded`, `commitTaskChanges`, taskModel.ts
lines 45–93 and 142–157) -/

/-- The environment the git helpers run in: whether `.git` already
exists in the data directory, and whether the external `git` commands
fail (e.g. git is not installed or the directory is not writable). -/
structure GitEnv where
  gitDirExists : Bool
  gitInitFails : Bool
  gitCommitFails : Bool
deriving Repr, DecidableEq

/-- `initGitIfNeeded` (lines 45–71): when `.git` is absent it runs
`git init`/`git config`/`git commit`; there is **no** try/catch around
those commands, so their failure rejects the promise. -/
def initGitIfNeeded (env : GitEnv) : Except String Unit :=
  if env.gitDirExists then Except.ok ()
  else if env.gitInitFails then Except.error "git command failed"
  else Except.ok ()

/-- The body of `commitTaskChanges` before its catch (lines 74–88). -/
def commitTaskChangesAttempt (env : GitEnv) : Except String Unit :=
  if env.gitCommitFails then Except.error "git commit error" else Except.ok ()

/-- `commitTaskChanges` (lines 73–93): the whole body is wrapped in
try/catch — a git failure is logged and swallowed, never surfaced. -/
def commitTaskChanges (env : GitEnv) : Except String Unit :=
  match commitTaskChangesAttempt env with
  | Except.ok _ => Except.ok ()
  | Except.error _ => Except.ok ()

/-- The persistent state `writeTasks` touches: the tasks snapshot file. -/
structure TaskStore where
  tasksFile : List Task
deriving Repr, DecidableEq

/-- `writeTasks` (lines 142–157): await `initGitIfNeeded` (unguarded),
then write the snapshot file, then — when a commit message was given —
run the swallowed `commitTaskChanges`.  An error result means the call
threw and the snapshot was **not** written. -/
def writeTasks (env : GitEnv) (store : TaskStore) (tasks : List Task)
    (commitMessage : Option String) : Except String TaskStore :=
  match initGitIfNeeded env with
  | Except.error e => Except.error e
  | Except.ok _ =>
    let store := { store with tasksFile := tasks }
    match commitMessage with
    | some _ =>
      match commitTaskChanges env with
      | Except.ok _ => Except.ok store
      | Except.error e => Except.error e
    | none => Except.ok store

/-- Claim C3 is violated by the code: the post-write commit step is
indeed swallowed (second and third conjuncts: with `.git` present, the
write succeeds even when every git command fails), but the **pre-write**
git-initialisation step is not guarded — when `.git` is absent and
`git init` fails, `writeTasks` rejects before `fs.writeFile`, so a
version-control failure does surface to the caller and blocks the
snapshot write (first conjunct). -/
theorem c3_git_init_failure_blocks_write :
    writeTasks { gitDirExists := false, gitInitFails := true, gitCommitFails := false }
      { tasksFile := [taskCompletedX] } [] (some "Clear all tasks") =
      Except.error "git command failed" ∧
    writeTasks { gitDirExists := true, gitInitFails := false, gitCommitFails := true }
      { tasksFile := [taskCompletedX] } [] (some "Clear all tasks") =
      Except.ok { tasksFile := [] } ∧
    writeTasks { gitDirExists := true, gitInitFails := true, gitCommitFails := true }
      { tasksFile := [] } [taskCompletedX] (some "Add new task: X") =
      Except.ok { tasksFile := [taskCompletedX] } :=
  ⟨rfl, rfl, rfl⟩

/-! ### Claim C8: search result ordering
(`searchTasksWithCommand`, taskModel.ts lines 842–1005; the shell/IO part
that recovers archived tasks from the memory directory is abstracted as
the `memoryTasks` input, which is then filtered exactly as the source
filters parsed archive tasks) -/

/-- Lowercasing, per character (`toLowerCase()` on the ASCII range). -/
def toLowerStr (s : String) : String :=
  String.mk (s.data.map Char.toLower)

/-- Contiguous-run test on character lists. -/
def listHasInfix : List Char → List Char → Bool
  | [], needle => needle.isEmpty
  | c :: rest, needle => List.isPrefixOf needle (c :: rest) || listHasInfix rest needle

/-- JS `haystack.includes(needle)`: contiguous substring test. -/
def containsSubstr (haystack needle : String) : Bool :=
  listHasInfix haystack.data needle.data

/-- `query.split(/\s+/).filter((k) => k.length > 0)`: the maximal
whitespace-free runs of the query. -/
def wordsAux (cur : List Char) : List Char → List String
  | [] => if cur.isEmpty then [] else [String.mk cur.reverse]
  | c :: cs =>
    if c.isWhitespace then
      if cur.isEmpty then wordsAux [] cs
      else String.mk cur.reverse :: wordsAux [] cs
    else wordsAux (c :: cur) cs

def splitKeywords (query : String) : List String :=
  wordsAux [] query.data

/-- One keyword matched case-insensitively against the five searched
fields (`name`, `description`, `notes`, `implementationGuide`,
`summary`). -/
def taskMatchesKeyword (task : Task) (keyword : String) : Bool :=
  let lowerKeyword := toLowerStr keyword
  containsSubstr (toLowerStr task.name) lowerKeyword ||
  containsSubstr (toLowerStr task.description) lowerKeyword ||
  (match task.notes with
   | some notes => containsSubstr (toLowerStr notes) lowerKeyword
   | none => false) ||
  (match task.implementationGuide with
   | some implementationGuide => containsSubstr (toLowerStr implementationGuide) lowerKeyword
   | none => false) ||
  (match task.summary with
   | some summary => containsSubstr (toLowerStr summary) lowerKeyword
   | none => false)

/-- `filterCurrentTasks` (lines 1066–1091). -/
def filterCurrentTasks (tasks : List Task) (query : String) (isId : Bool) : List Task :=
  if isId then tasks.filter (fun task => task.id = query)
  else
    let keywords := splitKeywords query
    if keywords.length = 0 then tasks
    else tasks.filter (fun task => keywords.all (fun keyword => taskMatchesKeyword task keyword))

/-- The per-file filtering of recovered archive tasks (lines 919–942):
identical matching semantics applied to the concatenation of the parsed
archive files. -/
def filterMemoryTasks (tasks : List Task) (query : String) (isId : Bool) : List Task :=
  if isId then tasks.filter (fun task => task.id = query)
  else tasks.filter (fun task =>
    let keywords := splitKeywords query
    if keywords.length = 0 then true
    else keywords.all (fun keyword => taskMatchesKeyword task keyword))

/-- `Map.set` keyed by task id (insertion order preserved). -/
def taskMapSet (m : List Task) (task : Task) : List Task :=
  if m.any (fun x => x.id = task.id) then m.map (fun x => if x.id = task.id then task else x)
  else m ++ [task]

/-- The merge-and-deduplicate step (lines 956–971): current tasks are
inserted first and take precedence; memory tasks are appended only when
their id is not present yet. -/
def mergeById (filteredCurrentTasks memoryTasks : List Task) : List Task :=
  let taskMap := filteredCurrentTasks.foldl taskMapSet []
  memoryTasks.foldl
    (fun m task => if m.any (fun x => x.id = task.id) then m else m ++ [task]) taskMap

/-- The sort comparator (lines 974–986) as a `≤`-style relation:
`searchCmpLe a b` holds when the comparator would not put `b` strictly
before `a` (i.e. `cmp a b ≤ 0`). -/
def searchCmpLe (a b : Task) : Bool :=
  match a.completedAt, b.completedAt with
  | some ca, some cb => decide (cb ≤ ca)
  | some _, none => true
  | none, some _ => false
  | none, none => decide (b.updatedAt ≤ a.updatedAt)

def SearchLe (a b : Task) : Prop := searchCmpLe a b = true

instance : DecidableRel SearchLe :=
  fun a b => inferInstanceAs (Decidable (searchCmpLe a b = true))

instance : IsTotal Task SearchLe where
  total a b := by
    unfold SearchLe searchCmpLe
    rcases a.completedAt with _ | ca <;> rcases b.completedAt with _ | cb <;> simp <;> omega

instance : IsTrans Task SearchLe where
  trans a b c hab hbc := by
    unfold SearchLe searchCmpLe at hab hbc ⊢
    rcases ha : a.completedAt with _ | ca <;> rcases hb : b.completedAt with _ | cb <;>
      rcases hc : c.completedAt with _ | cc <;> simp_all <;> omega

structure SearchPagination where
  currentPage : Nat
  totalPages : Nat
  totalResults : Nat
  hasMore : Bool
deriving Repr, DecidableEq

structure SearchResult where
  tasks : List Task
  pagination : SearchPagination
deriving Repr, DecidableEq

/-- The pure tail of `searchTasksWithCommand` (lines 953–1005): filter
the live collection, filter the recovered archive tasks, merge with
id-deduplication, sort with the completion/update comparator (ES2019
`Array.prototype.sort` is stable, modelled by the stable
`List.insertionSort`), and paginate with a clamped 1-indexed page. -/
def searchTasksCore (currentTasks memoryTasks : List Task) (query : String)
    (isId : Bool) (page pageSize : Nat) : SearchResult :=
  let filteredCurrentTasks := filterCurrentTasks currentTasks query isId
  let filteredMemoryTasks := filterMemoryTasks memoryTasks query isId
  let allTasks := mergeById filteredCurrentTasks filteredMemoryTasks
  let sorted := allTasks.insertionSort SearchLe
  let totalResults := sorted.length
  let totalPages := (totalResults + pageSize - 1) / pageSize
  let safePage := max 1 (min page (if totalPages = 0 then 1 else totalPages))
  let startIndex := (safePage - 1) * pageSize
  let endIndex := min (startIndex + pageSize) totalResults
  { tasks := (sorted.drop startIndex).take (endIndex - startIndex)
    pagination :=
      { currentPage := safePage
        totalPages := if totalPages = 0 then 1 else totalPages
        totalResults := totalResults
        hasMore := safePage < totalPages } }

/-- Two completed tasks tied on `completedAt` but with increasing
`updatedAt`, listed in that order in the live collection. -/
def taskTieOld : Task :=
  { id := "t1"
    name := "m"
    description := "first of the tie"
    status := TaskStatus.COMPLETED
    dependencies := []
    createdAt := 0
    updatedAt := 1
    completedAt := some 5 }

def taskTieNew : Task :=
  { id := "t2"
    name := "m"
    description := "second of the tie"
    status := TaskStatus.COMPLETED
    dependencies := []
    createdAt := 0
    updatedAt := 2
    completedAt := some 5 }

/-- Counterexample to claim C8 as stated: two results tied on the
completion timestamp are **not** reordered by `updatedAt` descending —
the comparator returns 0 on the tie, so the stable sort keeps the merged
order `[taskTieOld, taskTieNew]`, whose `updatedAt` values are
ascending. -/
theorem c8_counterexample :
    taskTieOld.completedAt = taskTieNew.completedAt ∧
    taskTieOld.updatedAt < taskTieNew.updatedAt ∧
    (searchTasksCore [taskTieOld, taskTieNew] [] "" false 1 5).tasks =
      [taskTieOld, taskTieNew] := by
  refine ⟨rfl, by decide, rfl⟩

/-- Claim C8, amended: every returned page is ordered by the comparator
relation `SearchLe`: tasks with a completion timestamp come before tasks
without one; among tasks with completion timestamps the order is by
completion timestamp descending; among tasks without completion
timestamps the order is by `updatedAt` descending.  Tasks tied on
completion timestamp are **not** sorted by `updatedAt` (the comparator
returns 0 there and the stable sort keeps their merged order, as the
counterexample shows); no ordering beyond `SearchLe` is guaranteed. -/
theorem c8_search_ordering (currentTasks memoryTasks : List Task) (query : String)
    (isId : Bool) (page pageSize : Nat) :
    (searchTasksCore currentTasks memoryTasks query isId page pageSize).tasks.Pairwise
      SearchLe := by
  unfold searchTasksCore
  dsimp only
  have hsorted :
      ((mergeById (filterCurrentTasks currentTasks query isId)
        (filterMemoryTasks memoryTasks query isId)).insertionSort SearchLe).Pairwise
        SearchLe :=
    List.sorted_insertionSort SearchLe _
  exact List.Pairwise.sublist
    ((List.take_sublist _ _).trans (List.drop_sublist _ _)) hsorted

end Shrimp
